import Mathlib

/-!
Verification development for the English-learning video platform
(Drizzle schema `drizzle/schema.ts`, db helpers `server/db.ts`,
tRPC routers `server/routers.ts`, and the documented processing
pipeline of `spec` sections 4.4, 4.6, 4.7 and the orchestrator).

Conventions of the shallow embedding:
- MySQL tables become Lean lists of records in insertion order;
  auto-increment ids are `max id + 1`.
- `timestamp` columns (`createdAt`, `updatedAt`, `publishedAt`,
  `lastReviewedAt`) are wall-clock values maintained by the database
  and are elided from the record model; `ORDER BY createdAt DESC` is
  modelled as reversing insertion order (createdAt is monotone in it).
- SQL `UNIQUE` constraints and foreign keys make an `INSERT`/`UPDATE`/
  `DELETE` fail; the db helpers catch the error and report failure, so
  the embedded operations return the unchanged state in that case.
- JavaScript truthiness on optional numeric / string parameters
  (`if (params.limit)` etc.) is modelled explicitly: `0` and `""` are
  falsy.
-/

/-! ## Data model (drizzle/schema.ts) -/

inductive Level where
  | A1 | A2 | B1 | B2 | C1 | C2
deriving DecidableEq, Repr

inductive VideoStatus where
  | draft | processing | published | archived
deriving DecidableEq, Repr

inductive SubtitleSource where
  | manual | ai_generated | imported
deriving DecidableEq, Repr

inductive Role where
  | user | admin
deriving DecidableEq, Repr

/-- One row of the `videos` table (timestamp columns elided). -/
structure Video where
  id : Nat
  title : String
  slug : String
  description : Option String
  videoUrl : String
  videoKey : String
  thumbnailUrl : Option String
  duration : Option Nat
  level : Level
  language : String
  categoryId : Option Nat
  uploadedBy : Nat
  status : VideoStatus
  viewCount : Nat
deriving DecidableEq, Repr

/-- One row of the `subtitles` table.  `isDefault` is an `int` column,
`1` meaning the default track. -/
structure Subtitle where
  id : Nat
  videoId : Nat
  language : String
  languageName : String
  subtitleUrl : String
  subtitleKey : String
  isDefault : Int
  source : SubtitleSource
deriving DecidableEq, Repr

/-- One row of the `categories` table. -/
structure Category where
  id : Nat
  name : String
  slug : String
  description : Option String
deriving DecidableEq, Repr

/-- One row of the `user_vocabulary` table.  `masteryLevel` is an SQL
`int` (so modelled as `Int`), documented as the 0-5 mastery ordinal. -/
structure UserVocabulary where
  id : Nat
  userId : Nat
  word : String
  translation : Option String
  phonetic : Option String
  definition : Option String
  /-- source column `example` (`example` is a Lean keyword) -/
  exampleSentence : Option String
  videoId : Option Nat
  timestamp : Option Nat
  context : Option String
  masteryLevel : Int
  reviewCount : Nat
deriving DecidableEq, Repr

/-- A row of the `users` table, projected to the columns the claims
touch (`id`, `role`); this is also the shape of `ctx.user` as seen by
`protectedProcedure`. -/
structure AuthUser where
  id : Nat
  role : Role
deriving DecidableEq, Repr

/-- The database state: the tables the claims are about. -/
structure DbState where
  users : List AuthUser
  videos : List Video
  subtitles : List Subtitle
  categories : List Category
  userVocabulary : List UserVocabulary
deriving DecidableEq, Repr

inductive TRPCErrorCode where
  | FORBIDDEN | INTERNAL_SERVER_ERROR
deriving DecidableEq, Repr

structure TRPCError where
  code : TRPCErrorCode
  message : String
deriving DecidableEq, Repr

/-! ## Database helpers (server/db.ts) -/

/-- JavaScript truthiness of an optional number (`0` is falsy). -/
def truthyNat : Option Nat → Bool
  | some n => decide (n ≠ 0)
  | none => false

/-- JavaScript truthiness of an optional string (`""` is falsy). -/
def truthyStr : Option String → Bool
  | some s => decide (s ≠ "")
  | none => false

/-- `pat` occurs at the start of `hay`. -/
def charsLeading : List Char → List Char → Bool
  | [], _ => true
  | _ :: _, [] => false
  | p :: ps, h :: hs => decide (p = h) && charsLeading ps hs

/-- `pat` occurs somewhere inside `hay`. -/
def charsInside (pat : List Char) : List Char → Bool
  | [] => charsLeading pat []
  | h :: hs => charsLeading pat (h :: hs) || charsInside pat hs

/-- SQL `col LIKE '%pat%'` on a nullable text column: `NULL` compares
falsy, otherwise substring containment (collation case-folding elided;
no claim depends on it). -/
def sqlLike (col : Option String) (pat : String) : Bool :=
  match col with
  | some t => charsInside pat.data t.data
  | none => false

/-- Parameter object of `getVideos` in server/db.ts. -/
structure GetVideosParams where
  status : Option VideoStatus := none
  level : Option Level := none
  categoryId : Option Nat := none
  search : Option String := none
  limit : Option Nat := none
  offset : Option Nat := none
deriving Repr

/-- The conjunction of the `conditions` pushed by `getVideos`: a
condition is pushed only when the corresponding parameter is truthy. -/
def videoMatches (p : GetVideosParams) (v : Video) : Bool :=
  (match p.status with
   | some s => decide (v.status = s)
   | none => true) &&
  (match p.level with
   | some l => decide (v.level = l)
   | none => true) &&
  (if truthyNat p.categoryId then decide (v.categoryId = p.categoryId) else true) &&
  (if truthyStr p.search then
     sqlLike (some v.title) (p.search.getD "") || sqlLike v.description (p.search.getD "")
   else true)

/-- `getVideos` (db.ts 2.2): filter by the pushed conditions, order by
`createdAt` descending (reverse of insertion order), then apply
`OFFSET`/`LIMIT` when those parameters are truthy. -/
def getVideos (st : DbState) (p : GetVideosParams) : List Video :=
  let rows := (st.videos.filter (videoMatches p)).reverse
  let rows := if truthyNat p.offset then rows.drop (p.offset.getD 0) else rows
  if truthyNat p.limit then rows.take (p.limit.getD 0) else rows

/-- `getVideoById` (db.ts 2.3): first row with the given id. -/
def getVideoById (st : DbState) (id : Nat) : Option Video :=
  st.videos.find? (fun v => decide (v.id = id))

/-- `getVideoBySlug` (db.ts 2.4): first row with the given slug. -/
def getVideoBySlug (st : DbState) (slug : String) : Option Video :=
  st.videos.find? (fun v => decide (v.slug = slug))

/-- `getSubtitlesByVideoId` (db.ts 2.8). -/
def getSubtitlesByVideoId (st : DbState) (videoId : Nat) : List Subtitle :=
  st.subtitles.filter (fun s => decide (s.videoId = videoId))

/-- AUTO_INCREMENT id for a `videos` insert. -/
def nextVideoId (st : DbState) : Nat :=
  (st.videos.foldr (fun v m => max v.id m) 0) + 1

/-- The insert payload for `videos` (drizzle `InsertVideo`), with the
schema defaults for `language` and `status`. -/
structure InsertVideo where
  title : String
  slug : String
  description : Option String := none
  videoUrl : String
  videoKey : String
  thumbnailUrl : Option String := none
  duration : Option Nat := none
  level : Level
  language : String := "en"
  categoryId : Option Nat := none
  uploadedBy : Nat
  status : VideoStatus := VideoStatus.draft
deriving Repr

/-- Whether an `INSERT INTO videos` of this payload violates a
constraint: the `videos_slug_unique` UNIQUE key, or the foreign keys
on `uploadedBy` (users) and `categoryId` (categories). -/
def insertVideoViolation (st : DbState) (d : InsertVideo) : Bool :=
  st.videos.any (fun v => decide (v.slug = d.slug)) ||
  !(st.users.any (fun u => decide (u.id = d.uploadedBy))) ||
  (match d.categoryId with
   | some c => !(st.categories.any (fun k => decide (k.id = c)))
   | none => false)

/-- The row created by `INSERT INTO videos`, with the fresh
auto-increment id and `viewCount` at its schema default 0. -/
def insertedVideoRow (st : DbState) (d : InsertVideo) : Video :=
  { id := nextVideoId st
    title := d.title
    slug := d.slug
    description := d.description
    videoUrl := d.videoUrl
    videoKey := d.videoKey
    thumbnailUrl := d.thumbnailUrl
    duration := d.duration
    level := d.level
    language := d.language
    categoryId := d.categoryId
    uploadedBy := d.uploadedBy
    status := d.status
    viewCount := 0 }

/-- `createVideo` (db.ts 2.5): insert, then re-read the row by its
insert id.  A constraint violation is caught and reported as
`undefined` (`none`), leaving the state unchanged. -/
def createVideo (st : DbState) (d : InsertVideo) : DbState × Option Video :=
  if insertVideoViolation st d then (st, none)
  else
    let st2 : DbState := { st with videos := st.videos ++ [insertedVideoRow st d] }
    (st2, getVideoById st2 (nextVideoId st))

/-- The partial update payload accepted by `updateVideo`: a field is
updated exactly when it is present (`some`). -/
structure UpdateVideoData where
  title : Option String := none
  slug : Option String := none
  description : Option String := none
  thumbnailUrl : Option String := none
  duration : Option Nat := none
  level : Option Level := none
  language : Option String := none
  categoryId : Option Nat := none
  status : Option VideoStatus := none
deriving Repr

/-- `UPDATE ... SET` applied to one row. -/
def applyVideoUpdate (d : UpdateVideoData) (v : Video) : Video :=
  { v with
    title := d.title.getD v.title
    slug := d.slug.getD v.slug
    description := match d.description with
      | some x => some x
      | none => v.description
    thumbnailUrl := match d.thumbnailUrl with
      | some x => some x
      | none => v.thumbnailUrl
    duration := match d.duration with
      | some x => some x
      | none => v.duration
    level := d.level.getD v.level
    language := d.language.getD v.language
    categoryId := match d.categoryId with
      | some x => some x
      | none => v.categoryId
    status := d.status.getD v.status }

/-- Whether `UPDATE videos SET ... WHERE id = id` violates a
constraint: a `slug` update colliding with another row's slug
(`videos_slug_unique`), or a `categoryId` update referencing a missing
category. -/
def updateVideoViolation (st : DbState) (id : Nat) (d : UpdateVideoData) : Bool :=
  (match d.slug with
   | some s => st.videos.any (fun v => decide (v.id ≠ id) && decide (v.slug = s))
   | none => false) ||
  (match d.categoryId with
   | some c => !(st.categories.any (fun k => decide (k.id = c)))
   | none => false)

/-- `updateVideo` (db.ts 2.6): update the rows matching the id and
return `true`; a constraint violation is caught and reported as
`false`, leaving the state unchanged. -/
def updateVideo (st : DbState) (id : Nat) (d : UpdateVideoData) : DbState × Bool :=
  if updateVideoViolation st id d then (st, false)
  else
    ({ st with
        videos := st.videos.map (fun v => if v.id = id then applyVideoUpdate d v else v) },
     true)

/-- `deleteVideo` (db.ts 2.7): delete the rows matching the id and
return `true`; the `ON DELETE NO ACTION` foreign keys from `subtitles`
and `user_vocabulary` make the delete fail (caught, `false`) while a
referencing row exists. -/
def deleteVideo (st : DbState) (id : Nat) : DbState × Bool :=
  if st.subtitles.any (fun s => decide (s.videoId = id)) ||
     st.userVocabulary.any (fun r => decide (r.videoId = some id)) then
    (st, false)
  else
    ({ st with videos := st.videos.filter (fun v => decide (v.id ≠ id)) }, true)

/-- `incrementVideoViewCount` (db.ts 2.9): re-read the video, then set
`viewCount` to the read value plus one on the rows matching the id. -/
def incrementVideoViewCount (st : DbState) (id : Nat) : DbState × Bool :=
  match getVideoById st id with
  | none => (st, false)
  | some video =>
    ({ st with
        videos := st.videos.map (fun v =>
          if v.id = id then { v with viewCount := video.viewCount + 1 } else v) },
     true)

/-! ## tRPC routers (server/routers.ts)

zod refinements that reject a request before the resolver runs
(`min(1)` on title/slug, `url()` on videoUrl/thumbnailUrl) are not
modelled; a procedure below receives an input that already passed
parsing, with zod `.default(...)` values filled in by the parse
functions.  zod's `z.object` strips unknown keys, so a parsed input
carries exactly the declared fields. -/

/-- Parsed input of the public `video.list` query (router 2.1).  The
schema declares no `status` field, so a parsed input cannot carry
one. -/
structure VideoListInput where
  level : Option Level := none
  categoryId : Option Nat := none
  search : Option String := none
  limit : Nat := 20
  offset : Nat := 0
deriving Repr

/-- `video.list` (router 2.1): calls `getVideos` with
`{ status: "published", ...input }` — the spread after the fixed
status comes from the parsed input, which has no `status` key. -/
def videoList (st : DbState) (input : Option VideoListInput) : List Video :=
  match input with
  | none => getVideos st { status := some VideoStatus.published }
  | some i =>
    getVideos st
      { status := some VideoStatus.published
        level := i.level
        categoryId := i.categoryId
        search := i.search
        limit := some i.limit
        offset := some i.offset }

/-- `video.getBySlug` (router 2.2): read the video by slug; when it
exists, increment its view count; return the (pre-increment) video. -/
def videoGetBySlug (st : DbState) (slug : String) : DbState × Option Video :=
  match getVideoBySlug st slug with
  | none => (st, none)
  | some video => ((incrementVideoViewCount st video.id).1, some video)

/-- Parsed input of `admin.listAllVideos` (router 2.5). -/
structure AdminListInput where
  status : Option VideoStatus := none
  level : Option Level := none
  categoryId : Option Nat := none
  search : Option String := none
  limit : Nat := 20
  offset : Nat := 0
deriving Repr

/-- `admin.listAllVideos` (router 2.5): FORBIDDEN unless the caller is
an admin; otherwise `getVideos(input || {})`. -/
def adminListAllVideos (st : DbState) (u : AuthUser) (input : Option AdminListInput) :
    Except TRPCError (List Video) :=
  if u.role ≠ Role.admin then
    Except.error ⟨TRPCErrorCode.FORBIDDEN, "Only admin can access this"⟩
  else
    Except.ok (match input with
      | none => getVideos st {}
      | some i =>
        getVideos st
          { status := i.status
            level := i.level
            categoryId := i.categoryId
            search := i.search
            limit := some i.limit
            offset := some i.offset })

/-- Input of `admin.createVideo` (router 2.6) before zod applies the
declared defaults: `language` and `status` may be omitted. -/
structure CreateVideoRawInput where
  title : String
  slug : String
  description : Option String := none
  videoUrl : String
  videoKey : String
  thumbnailUrl : Option String := none
  duration : Option Nat := none
  level : Level
  language : Option String := none
  categoryId : Option Nat := none
  status : Option VideoStatus := none
deriving Repr

/-- Parsed input of `admin.createVideo` after zod fills the defaults
`language = "en"` and `status = "draft"`. -/
structure CreateVideoInput where
  title : String
  slug : String
  description : Option String := none
  videoUrl : String
  videoKey : String
  thumbnailUrl : Option String := none
  duration : Option Nat := none
  level : Level
  language : String := "en"
  categoryId : Option Nat := none
  status : VideoStatus := VideoStatus.draft
deriving Repr

/-- zod parse of the `admin.createVideo` input: `.default("en")` on
`language`, `.default("draft")` on `status`. -/
def parseCreateVideoInput (r : CreateVideoRawInput) : CreateVideoInput :=
  { title := r.title
    slug := r.slug
    description := r.description
    videoUrl := r.videoUrl
    videoKey := r.videoKey
    thumbnailUrl := r.thumbnailUrl
    duration := r.duration
    level := r.level
    language := r.language.getD "en"
    categoryId := r.categoryId
    status := r.status.getD VideoStatus.draft }

/-- `admin.createVideo` (router 2.6): FORBIDDEN unless the caller is
an admin; otherwise `createVideo({ ...input, uploadedBy: ctx.user.id })`. -/
def adminCreateVideo (st : DbState) (u : AuthUser) (input : CreateVideoInput) :
    DbState × Except TRPCError (Option Video) :=
  if u.role ≠ Role.admin then
    (st, Except.error ⟨TRPCErrorCode.FORBIDDEN, "Only admin can create videos"⟩)
  else
    let r := createVideo st
      { title := input.title
        slug := input.slug
        description := input.description
        videoUrl := input.videoUrl
        videoKey := input.videoKey
        thumbnailUrl := input.thumbnailUrl
        duration := input.duration
        level := input.level
        language := input.language
        categoryId := input.categoryId
        uploadedBy := u.id
        status := input.status }
    (r.1, Except.ok r.2)

/-- Parsed input of `admin.updateVideo` (router 2.7): the id plus the
optional fields. -/
structure UpdateVideoInput where
  id : Nat
  data : UpdateVideoData := {}
deriving Repr

/-- `admin.updateVideo` (router 2.7): FORBIDDEN unless the caller is
an admin; otherwise update and turn a `false` result into an
INTERNAL_SERVER_ERROR. -/
def adminUpdateVideo (st : DbState) (u : AuthUser) (input : UpdateVideoInput) :
    DbState × Except TRPCError Unit :=
  if u.role ≠ Role.admin then
    (st, Except.error ⟨TRPCErrorCode.FORBIDDEN, "Only admin can update videos"⟩)
  else
    let r := updateVideo st input.id input.data
    if r.2 then (r.1, Except.ok ())
    else (r.1, Except.error ⟨TRPCErrorCode.INTERNAL_SERVER_ERROR, "Failed to update video"⟩)

/-- `admin.deleteVideo` (router 2.8): FORBIDDEN unless the caller is
an admin; otherwise delete and turn a `false` result into an
INTERNAL_SERVER_ERROR. -/
def adminDeleteVideo (st : DbState) (u : AuthUser) (id : Nat) :
    DbState × Except TRPCError Unit :=
  if u.role ≠ Role.admin then
    (st, Except.error ⟨TRPCErrorCode.FORBIDDEN, "Only admin can delete videos"⟩)
  else
    let r := deleteVideo st id
    if r.2 then (r.1, Except.ok ())
    else (r.1, Except.error ⟨TRPCErrorCode.INTERNAL_SERVER_ERROR, "Failed to delete video"⟩)

/-! ## Pipeline components modelled from the spec

The processing pipeline (Orchestrator, Semantic Chunker, Subtitle
Emitter, Search Indexer) and the FastAPI vocabulary endpoints are
documented in the repository but their implementation is not part of
the provided source; the definitions below are modelled from the
spec's contracts. -/

/-- A word-level transcription token (spec 4.3).  Times are in
milliseconds (the spec's fractional seconds scaled to an integer
grid). -/
structure Word where
  text : String
  startTime : Nat
  endTime : Nat
deriving DecidableEq, Repr

/-- A sentence-level segment (spec 4.4 / TranscriptSentence). -/
structure Sentence where
  text : String
  startTime : Nat
  endTime : Nat
deriving DecidableEq, Repr

/-- A word carrying sentence-final punctuation ends a segment
(spec 4.4 tie-break rule). -/
def sentenceFinal (w : Word) : Bool :=
  w.text.endsWith "." || w.text.endsWith "!" || w.text.endsWith "?"

/-- Modelled from the spec: the Semantic Chunker's grouping pass
(spec 4.4), whose implementation is not in the provided source.  The
accumulator holds the current segment's words in reverse.  A segment
ends after a word with sentence-final punctuation, before a silence
gap of at least `gapMs` to the next word, or when the segment reaches
`maxWords` (force split to bound translation batch size). -/
def chunkGroups (gapMs maxWords : Nat) (acc : List Word) : List Word → List (List Word)
  | [] => if acc.isEmpty then [] else [acc.reverse]
  | w :: rest =>
    if sentenceFinal w || acc.length + 1 ≥ maxWords ||
       (match rest with
        | [] => false
        | next :: _ => w.endTime + gapMs ≤ next.startTime) then
      (acc.reverse ++ [w]) :: chunkGroups gapMs maxWords [] rest
    else
      chunkGroups gapMs maxWords (w :: acc) rest

/-- A segment's aggregated form (spec 4.4): start of its first word,
end of its last word, concatenated text. -/
def segmentOf (ws : List Word) : Sentence :=
  { text := String.intercalate " " (ws.map (fun w => w.text))
    startTime := (ws.head?.map (fun w => w.startTime)).getD 0
    endTime := (ws.getLast?.map (fun w => w.endTime)).getD 0 }

/-- Modelled from the spec: the Semantic Chunker (spec 4.4), whose
implementation is not in the provided source — an ordered sequence of
sentence segments from the word-level input. -/
def chunkTranscript (gapMs maxWords : Nat) (ws : List Word) : List Sentence :=
  (chunkGroups gapMs maxWords [] ws).map segmentOf

/-- One document of the search store: a sentence indexed under its
video (spec 4.7). -/
structure IndexedDoc where
  videoId : Nat
  sentence : Sentence
deriving DecidableEq, Repr

/-- Modelled from the spec: the Search Indexer's `Index(videoID,
sentences)` (spec 4.7), whose implementation is not in the provided
source — re-indexing a video overwrites (replaces) its prior entries
rather than appending duplicates. -/
def indexVideo (idx : List IndexedDoc) (videoId : Nat) (sentences : List Sentence) :
    List IndexedDoc :=
  idx.filter (fun d => decide (d.videoId ≠ videoId)) ++
    sentences.map (fun s => { videoId := videoId, sentence := s })

/-- The subtitle row the emitter persists for one language of one
video: `isDefault = 1` exactly for the source/original language
(spec 4.6), `source = ai_generated`. -/
def emittedSubtitle (videoId : Nat) (originalLang : String)
    (lang : String) (langName url key : String) : Subtitle :=
  { id := 0
    videoId := videoId
    language := lang
    languageName := langName
    subtitleUrl := url
    subtitleKey := key
    isDefault := if lang = originalLang then 1 else 0
    source := SubtitleSource.ai_generated }

/-- Modelled from the spec: the Subtitle Emitter (spec 4.6), whose
implementation is not in the provided source — emit one caption
artifact per language (original first, then each target language),
persist each as a Subtitle record replacing the video's previous
subtitle rows (per-video overwrite, matching the pipeline's idempotent
retries), and mark exactly the original language's record as default.
`meta lang = (display name, artifact URL, storage key)` abstracts the
caption-file serialization. -/
def emitSubtitles (st : DbState) (videoId : Nat) (originalLang : String)
    (targetLangs : List String) (meta : String → String × String × String) : DbState :=
  let langs := originalLang :: targetLangs
  let fresh := langs.map (fun lang =>
    emittedSubtitle videoId originalLang lang (meta lang).1 (meta lang).2.1 (meta lang).2.2)
  { st with
      subtitles := st.subtitles.filter (fun s => decide (s.videoId ≠ videoId)) ++ fresh }

/-- Modelled from the spec: creating a UserVocabulary record (the
FastAPI `vocabulary.save` endpoint is not in the provided source).
The save payload carries no mastery field; `masteryLevel` and
`reviewCount` start at their schema defaults 0. -/
def saveVocabulary (st : DbState) (userId : Nat) (word : String)
    (translation phonetic definition exampleSentence : Option String)
    (videoId timestamp : Option Nat) (context : Option String) : DbState :=
  let nextId := (st.userVocabulary.foldr (fun r m => max r.id m) 0) + 1
  { st with
      userVocabulary := st.userVocabulary ++
        [{ id := nextId
           userId := userId
           word := word
           translation := translation
           phonetic := phonetic
           definition := definition
           exampleSentence := exampleSentence
           videoId := videoId
           timestamp := timestamp
           context := context
           masteryLevel := 0
           reviewCount := 0 }] }

/-- Modelled from the spec: updating a vocabulary record's mastery
level (the FastAPI `vocabulary.update` endpoint is not in the provided
source).  The spec makes the mastery level a bounded ordinal 0-5, so
the update validates the new value and rejects anything outside the
range, leaving the state unchanged. -/
def updateVocabularyMastery (st : DbState) (id : Nat) (m : Int) : DbState × Bool :=
  if 0 ≤ m ∧ m ≤ 5 then
    ({ st with
        userVocabulary := st.userVocabulary.map (fun r =>
          if r.id = id then
            { r with masteryLevel := m, reviewCount := r.reviewCount + 1 }
          else r) },
     true)
  else (st, false)

/-- Processing-job stages (spec 3 / 4.1). -/
inductive JobStage where
  | queued | extracting | transcribing | chunking | translating
  | emitting_subtitles | indexing | done | failed
deriving DecidableEq, Repr

/-- A stage is terminal exactly when it is `done` or `failed`
(spec 4.1); a job is active while its stage is non-terminal. -/
def JobStage.isActive : JobStage → Bool
  | JobStage.done => false
  | JobStage.failed => false
  | _ => true

/-- A ProcessingJob row (spec 3), owned by the Orchestrator. -/
structure ProcessingJob where
  id : Nat
  videoId : Nat
  stage : JobStage
deriving DecidableEq, Repr

/-- The Orchestrator's job store (spec 9: a persisted row-per-job
store keyed by video). -/
structure JobStore where
  jobs : List ProcessingJob
deriving DecidableEq, Repr

inductive SubmitError where
  | AlreadyProcessing
deriving DecidableEq, Repr

/-- Fresh job id for a submit. -/
def nextJobId (st : JobStore) : Nat :=
  (st.jobs.foldr (fun j m => max j.id m) 0) + 1

/-- Modelled from the spec: the Orchestrator's `Submit(videoID)`
(spec 4.1), whose implementation is not in the provided source — fail
with `AlreadyProcessing` (creating no job) when a job is already
active for that video, otherwise create exactly one job in `queued`. -/
def submit (st : JobStore) (videoId : Nat) : JobStore × Except SubmitError Nat :=
  if st.jobs.any (fun j => decide (j.videoId = videoId) && j.stage.isActive) then
    (st, Except.error SubmitError.AlreadyProcessing)
  else
    let jid := nextJobId st
    ({ jobs := st.jobs ++ [{ id := jid, videoId := videoId, stage := JobStage.queued }] },
     Except.ok jid)

/-! ## Invariants -/

/-- PRIMARY KEY: video row ids are pairwise distinct. -/
def videoIdsUnique (l : List Video) : Prop :=
  l.Pairwise (fun a b => a.id ≠ b.id)

/-- `videos_slug_unique`: video slugs are pairwise distinct. -/
def videoSlugsUnique (l : List Video) : Prop :=
  l.Pairwise (fun a b => a.slug ≠ b.slug)

/-- `categories_slug_unique`: category slugs are pairwise distinct. -/
def categorySlugsUnique (l : List Category) : Prop :=
  l.Pairwise (fun a b => a.slug ≠ b.slug)

/-- Number of default subtitle rows of one video. -/
def defaultCount (l : List Subtitle) (videoId : Nat) : Nat :=
  l.countP (fun s => decide (s.videoId = videoId) && decide (s.isDefault = 1))

/-- Every mastery level lies in the bounded ordinal range 0-5. -/
def masteryBounded (l : List UserVocabulary) : Prop :=
  ∀ r ∈ l, 0 ≤ r.masteryLevel ∧ r.masteryLevel ≤ 5

/-- Number of active jobs of one video. -/
def activeJobCount (st : JobStore) (videoId : Nat) : Nat :=
  st.jobs.countP (fun j => decide (j.videoId = videoId) && j.stage.isActive)

/-! ## Theorems -/

/-- C8: the Search Indexer's `Index` operation is idempotent — running
`Index(videoID, sentences)` twice produces the same indexed state as
running it once (re-indexing overwrites rather than duplicates), so in
particular the final indexed document count is unchanged by a second
run. -/
theorem indexVideo_idempotent (idx : List IndexedDoc) (videoId : Nat)
    (sentences : List Sentence) :
    indexVideo (indexVideo idx videoId sentences) videoId sentences =
      indexVideo idx videoId sentences ∧
    (indexVideo (indexVideo idx videoId sentences) videoId sentences).length =
      (indexVideo idx videoId sentences).length := by
  have key : indexVideo (indexVideo idx videoId sentences) videoId sentences =
      indexVideo idx videoId sentences := by
    unfold indexVideo
    rw [List.filter_append]
    have h1 : (sentences.map (fun s => ({ videoId := videoId, sentence := s } : IndexedDoc))).filter
        (fun d => decide (d.videoId ≠ videoId)) = [] := by
      rw [List.filter_eq_nil_iff]
      intro a ha
      rw [List.mem_map] at ha
      obtain ⟨s, _, rfl⟩ := ha
      simp
    rw [h1, List.append_nil, List.filter_filter]
    simp
  exact ⟨key, by rw [key]⟩

/-- C9: the Semantic Chunker is deterministic — two runs on identical
word-level input (with identical gap / force-split parameters) produce
identical segmentation.  In the embedding the chunker is a pure
function, so determinism is congruence. -/
theorem chunkTranscript_deterministic (gapMs maxWords : Nat) (ws1 ws2 : List Word)
    (h : ws1 = ws2) :
    chunkTranscript gapMs maxWords ws1 = chunkTranscript gapMs maxWords ws2 := by
  rw [h]

/-- Witness for C9 at a concrete two-sentence transcript. -/
theorem chunkTranscript_deterministic_witness :
    [⟨"Hello", 0, 400⟩, ⟨"world.", 450, 1200⟩, ⟨"Bye.", 2000, 2400⟩] =
      ([⟨"Hello", 0, 400⟩, ⟨"world.", 450, 1200⟩, ⟨"Bye.", 2000, 2400⟩] : List Word) ∧
    chunkTranscript 500 12 [⟨"Hello", 0, 400⟩, ⟨"world.", 450, 1200⟩, ⟨"Bye.", 2000, 2400⟩] =
      chunkTranscript 500 12 [⟨"Hello", 0, 400⟩, ⟨"world.", 450, 1200⟩, ⟨"Bye.", 2000, 2400⟩] :=
  ⟨rfl, chunkTranscript_deterministic 500 12 _ _ rfl⟩

/-- Every row returned by `getVideos` is a table row satisfying every
pushed condition. -/
theorem getVideos_subset_matches (st : DbState) (p : GetVideosParams) (v : Video)
    (hv : v ∈ getVideos st p) : v ∈ st.videos ∧ videoMatches p v = true := by
  have hv' : v ∈ (st.videos.filter (videoMatches p)).reverse := by
    unfold getVideos at hv
    dsimp only at hv
    split at hv
    · have h2 := List.take_subset _ _ hv
      split at h2
      · exact List.drop_subset _ _ h2
      · exact h2
    · split at hv
      · exact List.drop_subset _ _ hv
      · exact hv
  rw [List.mem_reverse, List.mem_filter] at hv'
  exact hv'

/-- C3: for every input, the public `video.list` query returns only
videos whose status is `published` — the procedure fixes
`status: "published"` and the zod input schema has no field that can
override it. -/
theorem videoList_only_published (st : DbState) (input : Option VideoListInput)
    (v : Video) (hv : v ∈ videoList st input) : v.status = VideoStatus.published := by
  unfold videoList at hv
  cases input with
  | none =>
    have h := (getVideos_subset_matches st _ v hv).2
    simp only [videoMatches, Bool.and_eq_true, decide_eq_true_eq] at h
    exact h.1.1.1
  | some i =>
    have h := (getVideos_subset_matches st _ v hv).2
    simp only [videoMatches, Bool.and_eq_true, decide_eq_true_eq] at h
    exact h.1.1.1

/-- Sample rows shared by the concrete witnesses below. -/
def sampleUser : AuthUser := { id := 1, role := Role.admin }

def sampleVideo : Video :=
  { id := 1
    title := "Demo"
    slug := "demo-1"
    description := none
    videoUrl := "https://cdn.example/v.mp4"
    videoKey := "v.mp4"
    thumbnailUrl := none
    duration := some 12
    level := Level.B1
    language := "en"
    categoryId := none
    uploadedBy := 1
    status := VideoStatus.published
    viewCount := 0 }

def sampleDb : DbState :=
  { users := [sampleUser]
    videos := [sampleVideo]
    subtitles := []
    categories := []
    userVocabulary := [] }

/-- Witness for C3 at a concrete state and the empty input. -/
theorem videoList_only_published_witness :
    sampleVideo ∈ videoList sampleDb none ∧
      sampleVideo.status = VideoStatus.published :=
  have hm : sampleVideo ∈ videoList sampleDb none := by decide
  ⟨hm, videoList_only_published sampleDb none sampleVideo hm⟩

/-- C4: every admin-router procedure (`listAllVideos`, `createVideo`,
`updateVideo`, `deleteVideo`) fails with a FORBIDDEN `TRPCError` when
the authenticated caller's role is not `admin`, and in that case the
database state is returned unchanged — the role check precedes every
database helper call. -/
theorem admin_router_forbidden (st : DbState) (u : AuthUser)
    (inputL : Option AdminListInput) (inputC : CreateVideoInput)
    (inputU : UpdateVideoInput) (deleteId : Nat) (h : u.role ≠ Role.admin) :
    adminListAllVideos st u inputL =
      Except.error { code := TRPCErrorCode.FORBIDDEN, message := "Only admin can access this" } ∧
    adminCreateVideo st u inputC =
      (st, Except.error { code := TRPCErrorCode.FORBIDDEN, message := "Only admin can create videos" }) ∧
    adminUpdateVideo st u inputU =
      (st, Except.error { code := TRPCErrorCode.FORBIDDEN, message := "Only admin can update videos" }) ∧
    adminDeleteVideo st u deleteId =
      (st, Except.error { code := TRPCErrorCode.FORBIDDEN, message := "Only admin can delete videos" }) := by
  unfold adminListAllVideos adminCreateVideo adminUpdateVideo adminDeleteVideo
  rw [if_pos h, if_pos h, if_pos h, if_pos h]
  exact ⟨rfl, rfl, rfl, rfl⟩

/-- Witness for C4 with a concrete non-admin caller. -/
theorem admin_router_forbidden_witness :
    (({ id := 2, role := Role.user } : AuthUser).role ≠ Role.admin) ∧
    adminListAllVideos sampleDb { id := 2, role := Role.user } none =
      Except.error { code := TRPCErrorCode.FORBIDDEN, message := "Only admin can access this" } ∧
    adminCreateVideo sampleDb { id := 2, role := Role.user }
        { title := "T", slug := "t-1", videoUrl := "https://cdn.example/t.mp4",
          videoKey := "t.mp4", level := Level.A1 } =
      (sampleDb, Except.error { code := TRPCErrorCode.FORBIDDEN, message := "Only admin can create videos" }) ∧
    adminUpdateVideo sampleDb { id := 2, role := Role.user } { id := 1 } =
      (sampleDb, Except.error { code := TRPCErrorCode.FORBIDDEN, message := "Only admin can update videos" }) ∧
    adminDeleteVideo sampleDb { id := 2, role := Role.user } 1 =
      (sampleDb, Except.error { code := TRPCErrorCode.FORBIDDEN, message := "Only admin can delete videos" }) :=
  ⟨by decide,
    admin_router_forbidden sampleDb { id := 2, role := Role.user } none
      { title := "T", slug := "t-1", videoUrl := "https://cdn.example/t.mp4",
        videoKey := "t.mp4", level := Level.A1 }
      { id := 1 } 1 (by decide)⟩

/-- Every id in the videos table is bounded by the running max. -/
theorem video_id_le_foldr_max (l : List Video) (v : Video) (hv : v ∈ l) :
    v.id ≤ l.foldr (fun w m => max w.id m) 0 := by
  induction l with
  | nil => cases hv
  | cons a t ih =>
    rcases List.mem_cons.mp hv with h | h
    · subst h; exact le_max_left _ _
    · exact le_trans (ih h) (le_max_right _ _)

/-- The auto-increment id of a `videos` insert is fresh. -/
theorem nextVideoId_fresh (st : DbState) (v : Video) (hv : v ∈ st.videos) :
    v.id ≠ nextVideoId st := by
  have h := video_id_le_foldr_max st.videos v hv
  unfold nextVideoId
  omega

/-- Reading back a freshly appended row by its id finds that row. -/
theorem find?_append_fresh (l : List Video) (row : Video) (id : Nat)
    (hid : row.id = id) (hfresh : ∀ v ∈ l, v.id ≠ id) :
    List.find? (fun v => decide (v.id = id)) (l ++ [row]) = some row := by
  rw [List.find?_append]
  have h1 : l.find? (fun v => decide (v.id = id)) = none := by
    rw [List.find?_eq_none]
    intro x hx
    simp [hfresh x hx]
  rw [h1]
  simp [List.find?, hid]

/-- A successful `createVideo` returns a row carrying the payload's
status. -/
theorem createVideo_ok_status (st : DbState) (d : InsertVideo) (v : Video)
    (hok : (createVideo st d).2 = some v) : v.status = d.status := by
  unfold createVideo at hok
  split at hok
  · simp at hok
  · simp only at hok
    unfold getVideoById at hok
    simp only at hok
    rw [find?_append_fresh st.videos (insertedVideoRow st d) (nextVideoId st) rfl
        (fun w hw => nextVideoId_fresh st w hw), Option.some.injEq] at hok
    subst hok
    rfl

/-- C6: a video created through `admin.createVideo` with the `status`
field omitted from the input is stored (and returned) in the `draft`
state — the zod default fills `status = "draft"`. -/
theorem adminCreateVideo_defaults_draft (st : DbState) (u : AuthUser)
    (raw : CreateVideoRawInput) (hstatus : raw.status = none) (v : Video)
    (hok : (adminCreateVideo st u (parseCreateVideoInput raw)).2 = Except.ok (some v)) :
    v.status = VideoStatus.draft := by
  unfold adminCreateVideo at hok
  split at hok
  · simp at hok
  · simp only at hok
    rw [Except.ok.injEq] at hok
    have h := createVideo_ok_status st _ v hok
    rw [h]
    simp [parseCreateVideoInput, hstatus]

/-- A concrete `admin.createVideo` input with `status` omitted. -/
def sampleRaw : CreateVideoRawInput :=
  { title := "New"
    slug := "new-1"
    videoUrl := "https://cdn.example/n.mp4"
    videoKey := "n.mp4"
    level := Level.A2 }

/-- The row that concrete creation stores. -/
def sampleCreated : Video :=
  { id := 2
    title := "New"
    slug := "new-1"
    description := none
    videoUrl := "https://cdn.example/n.mp4"
    videoKey := "n.mp4"
    thumbnailUrl := none
    duration := none
    level := Level.A2
    language := "en"
    categoryId := none
    uploadedBy := 1
    status := VideoStatus.draft
    viewCount := 0 }

/-- Witness for C6: the concrete creation succeeds and the stored row
is in `draft`. -/
theorem adminCreateVideo_defaults_draft_witness :
    sampleRaw.status = none ∧
    (adminCreateVideo sampleDb sampleUser (parseCreateVideoInput sampleRaw)).2 =
      Except.ok (some sampleCreated) ∧
    sampleCreated.status = VideoStatus.draft :=
  have hok : (adminCreateVideo sampleDb sampleUser (parseCreateVideoInput sampleRaw)).2 =
      Except.ok (some sampleCreated) := by rfl
  ⟨rfl, hok,
    adminCreateVideo_defaults_draft sampleDb sampleUser sampleRaw rfl sampleCreated hok⟩

/-- With pairwise-distinct ids, two table rows with the same id are
the same row. -/
theorem video_eq_of_id_eq {l : List Video} (h : l.Pairwise (fun a b => a.id ≠ b.id))
    {a b : Video} (ha : a ∈ l) (hb : b ∈ l) (hid : a.id = b.id) : a = b := by
  by_contra hne
  exact (List.Pairwise.forall (fun x y hxy => hxy.symm) h ha hb hne) hid

/-- With pairwise-distinct ids, `getVideoById` at a member's id reads
back that member. -/
theorem getVideoById_self (st : DbState) (hids : videoIdsUnique st.videos)
    (v : Video) (hv : v ∈ st.videos) : getVideoById st v.id = some v := by
  unfold getVideoById
  cases hw : st.videos.find? (fun w => decide (w.id = v.id)) with
  | none =>
    rw [List.find?_eq_none] at hw
    exact absurd (by simp) (hw v hv)
  | some w =>
    have hmem := List.mem_of_find?_eq_some hw
    have hpred := List.find?_some hw
    rw [decide_eq_true_eq] at hpred
    rw [video_eq_of_id_eq hids hmem hv hpred]

/-- C5: the public `video.getBySlug` query's only write effect — when
the slug resolves, the call bumps exactly that video's `viewCount` by
one and leaves every other field and every other table unchanged; when
it does not resolve, it returns `none` and changes nothing. -/
theorem videoGetBySlug_frame (st : DbState) (slug : String)
    (hids : videoIdsUnique st.videos) :
    (getVideoBySlug st slug = none → videoGetBySlug st slug = (st, none)) ∧
    (∀ v, getVideoBySlug st slug = some v →
      (videoGetBySlug st slug).2 = some v ∧
      (videoGetBySlug st slug).1.videos =
        st.videos.map (fun w =>
          if w.id = v.id then { w with viewCount := w.viewCount + 1 } else w) ∧
      (videoGetBySlug st slug).1.users = st.users ∧
      (videoGetBySlug st slug).1.subtitles = st.subtitles ∧
      (videoGetBySlug st slug).1.categories = st.categories ∧
      (videoGetBySlug st slug).1.userVocabulary = st.userVocabulary) := by
  constructor
  · intro h
    unfold videoGetBySlug
    rw [h]
  · intro v hv
    have hmem : v ∈ st.videos := List.mem_of_find?_eq_some hv
    have hstep : videoGetBySlug st slug = ((incrementVideoViewCount st v.id).1, some v) := by
      unfold videoGetBySlug
      rw [hv]
    have hstep2 : incrementVideoViewCount st v.id =
        ({ st with videos := st.videos.map (fun w =>
            if w.id = v.id then { w with viewCount := v.viewCount + 1 } else w) }, true) := by
      unfold incrementVideoViewCount
      rw [getVideoById_self st hids v hmem]
    rw [hstep, hstep2]
    refine ⟨rfl, ?_, rfl, rfl, rfl, rfl⟩
    apply List.map_congr_left
    intro a ha
    by_cases hid : a.id = v.id
    · have hav : a = v := video_eq_of_id_eq hids ha hmem hid
      subst hav
      simp
    · simp [hid]

/-- Witness for C5 at the sample state. -/
theorem videoGetBySlug_frame_witness :
    videoIdsUnique sampleDb.videos ∧
    getVideoBySlug sampleDb "demo-1" = some sampleVideo ∧
    (videoGetBySlug sampleDb "demo-1").2 = some sampleVideo ∧
    (videoGetBySlug sampleDb "demo-1").1.videos =
      sampleDb.videos.map (fun w =>
        if w.id = sampleVideo.id then { w with viewCount := w.viewCount + 1 } else w) :=
  have hids : videoIdsUnique sampleDb.videos := by
    unfold videoIdsUnique sampleDb
    simp
  have hfind : getVideoBySlug sampleDb "demo-1" = some sampleVideo := by rfl
  have h := (videoGetBySlug_frame sampleDb "demo-1" hids).2 sampleVideo hfind
  ⟨hids, hfind, h.1, h.2.1⟩

/-- C2: video slugs stay pairwise distinct (the `videos_slug_unique`
key) across `createVideo`, `updateVideo` and `deleteVideo` — a
violating insert or slug update is rejected with the state unchanged —
and category slugs (the `categories_slug_unique` key) stay pairwise
distinct as well, since none of these operations writes the
`categories` table. -/
theorem slug_uniqueness_preserved (st : DbState)
    (hids : videoIdsUnique st.videos) (hslugs : videoSlugsUnique st.videos)
    (hcat : categorySlugsUnique st.categories)
    (d : InsertVideo) (uid : Nat) (upd : UpdateVideoData) (did : Nat) :
    (videoSlugsUnique (createVideo st d).1.videos ∧
      categorySlugsUnique (createVideo st d).1.categories) ∧
    (videoSlugsUnique (updateVideo st uid upd).1.videos ∧
      categorySlugsUnique (updateVideo st uid upd).1.categories) ∧
    (videoSlugsUnique (deleteVideo st did).1.videos ∧
      categorySlugsUnique (deleteVideo st did).1.categories) := by
  refine ⟨⟨?_, ?_⟩, ⟨?_, ?_⟩, ⟨?_, ?_⟩⟩
  · unfold createVideo
    split
    · exact hslugs
    · rename_i hviol
      simp only
      unfold videoSlugsUnique
      rw [List.pairwise_append]
      refine ⟨hslugs, by simp, ?_⟩
      intro a ha b hb
      rw [List.mem_singleton] at hb
      subst hb
      have hno : ∀ x ∈ st.videos, x.slug ≠ d.slug := by
        intro x hx heq
        apply hviol
        unfold insertVideoViolation
        have hany : st.videos.any (fun v => decide (v.slug = d.slug)) = true := by
          rw [List.any_eq_true]
          exact ⟨x, hx, by simp [heq]⟩
        rw [hany]
        rfl
      intro heq
      exact hno a ha (by simpa [insertedVideoRow] using heq)
  · unfold createVideo
    split <;> exact hcat
  · unfold updateVideo
    split
    · exact hslugs
    · rename_i hviol
      simp only
      unfold videoSlugsUnique
      rw [List.pairwise_map]
      cases hsl : upd.slug with
      | none =>
        have hkeep : ∀ w : Video,
            (if w.id = uid then applyVideoUpdate upd w else w).slug = w.slug := by
          intro w
          by_cases h : w.id = uid
          · simp [h, applyVideoUpdate, hsl]
          · simp [h]
        refine List.Pairwise.imp_of_mem (fun {a} {b} ha hb hr => ?_) hslugs
        rw [hkeep a, hkeep b]
        exact hr
      | some s =>
        have hno : ∀ x ∈ st.videos, x.id ≠ uid → x.slug ≠ s := by
          intro x hx hxid heq
          apply hviol
          unfold updateVideoViolation
          rw [hsl]
          dsimp only
          have hany : st.videos.any
              (fun v => decide (v.id ≠ uid) && decide (v.slug = s)) = true := by
            rw [List.any_eq_true]
            exact ⟨x, hx, by simp [hxid, heq]⟩
          rw [hany]
          rfl
        refine List.Pairwise.imp_of_mem (fun {a} {b} ha hb hr => ?_) hslugs
        by_cases haid : a.id = uid <;> by_cases hbid : b.id = uid
        · have hab : a = b := video_eq_of_id_eq hids ha hb (by rw [haid, hbid])
          exact absurd (congrArg Video.slug hab) hr
        · intro heq
          rw [if_pos haid, if_neg hbid] at heq
          have h1 : (applyVideoUpdate upd a).slug = s := by
            simp [applyVideoUpdate, hsl]
          rw [h1] at heq
          exact hno b hb hbid heq.symm
        · intro heq
          rw [if_neg haid, if_pos hbid] at heq
          have h1 : (applyVideoUpdate upd b).slug = s := by
            simp [applyVideoUpdate, hsl]
          rw [h1] at heq
          exact hno a ha haid heq
        · intro heq
          rw [if_neg haid, if_neg hbid] at heq
          exact hr heq
  · unfold updateVideo
    split <;> exact hcat
  · unfold deleteVideo
    split
    · exact hslugs
    · simp only
      unfold videoSlugsUnique
      exact List.Pairwise.sublist (List.filter_sublist _) hslugs
  · unfold deleteVideo
    split <;> exact hcat

/-- Witness for C2: concrete preservation through a successful insert
of a second distinct slug. -/
theorem slug_uniqueness_preserved_witness :
    videoIdsUnique sampleDb.videos ∧
    videoSlugsUnique sampleDb.videos ∧
    categorySlugsUnique sampleDb.categories ∧
    videoSlugsUnique (createVideo sampleDb
      { title := "T2", slug := "demo-2", videoUrl := "https://cdn.example/w.mp4",
        videoKey := "w.mp4", level := Level.B2, uploadedBy := 1 }).1.videos :=
  have hids : videoIdsUnique sampleDb.videos := by
    unfold videoIdsUnique sampleDb
    simp
  have hslugs : videoSlugsUnique sampleDb.videos := by
    unfold videoSlugsUnique sampleDb
    simp
  have hcat : categorySlugsUnique sampleDb.categories := by
    unfold categorySlugsUnique sampleDb
    simp
  ⟨hids, hslugs, hcat,
    (slug_uniqueness_preserved sampleDb hids hslugs hcat
      { title := "T2", slug := "demo-2", videoUrl := "https://cdn.example/w.mp4",
        videoKey := "w.mp4", level := Level.B2, uploadedBy := 1 } 1 {} 1).1.1⟩

/-- Default-subtitle count of an emitted batch: under its own video
id, one per language equal to the original; under any other id,
zero. -/
theorem emitted_countP (videoId : Nat) (originalLang : String)
    (meta : String → String × String × String) (vid : Nat) (langs : List String) :
    (langs.map (fun lang => emittedSubtitle videoId originalLang lang
        (meta lang).1 (meta lang).2.1 (meta lang).2.2)).countP
      (fun s => decide (s.videoId = vid) && decide (s.isDefault = 1)) =
      if vid = videoId then langs.countP (fun lang => decide (lang = originalLang)) else 0 := by
  induction langs with
  | nil => simp
  | cons a t ih =>
    simp only [List.map_cons, List.countP_cons]
    rw [ih]
    by_cases hv : vid = videoId
    · subst hv
      by_cases ha : a = originalLang
      · simp [emittedSubtitle, ha, List.countP_cons]
      · simp [emittedSubtitle, ha, List.countP_cons]
    · simp [emittedSubtitle, hv, (Ne.symm hv : videoId ≠ vid), List.countP_cons]

/-- Exactly one language of the emitted batch equals the original. -/
theorem countP_eq_originalLang (originalLang : String) (targetLangs : List String)
    (hor : originalLang ∉ targetLangs) :
    (originalLang :: targetLangs).countP (fun lang => decide (lang = originalLang)) = 1 := by
  rw [List.countP_cons]
  have h0 : targetLangs.countP (fun lang => decide (lang = originalLang)) = 0 := by
    rw [List.countP_eq_zero]
    intro a ha
    simp only [decide_eq_true_eq]
    intro h
    exact hor (h ▸ ha)
  simp [h0]

/-- C1: subtitle emission marks exactly one subtitle of the video as
default — the source/original language's — and the per-video
at-most-one-default invariant holds for every video afterwards
whenever it held before. -/
theorem emitSubtitles_default_unique (st : DbState) (videoId : Nat)
    (originalLang : String) (targetLangs : List String)
    (meta : String → String × String × String)
    (hor : originalLang ∉ targetLangs)
    (hinv : ∀ vid, defaultCount st.subtitles vid ≤ 1) :
    defaultCount (emitSubtitles st videoId originalLang targetLangs meta).subtitles videoId = 1 ∧
    (∀ s ∈ (emitSubtitles st videoId originalLang targetLangs meta).subtitles,
      s.videoId = videoId → s.isDefault = 1 → s.language = originalLang) ∧
    (∀ vid, defaultCount (emitSubtitles st videoId originalLang targetLangs meta).subtitles vid ≤ 1) := by
  have hA0 : defaultCount
      (st.subtitles.filter (fun s => decide (s.videoId ≠ videoId))) videoId = 0 := by
    unfold defaultCount
    rw [List.countP_eq_zero]
    intro a ha
    rw [List.mem_filter] at ha
    simp only [decide_eq_true_eq] at ha
    simp [ha.2]
  have hAle : ∀ vid, defaultCount
      (st.subtitles.filter (fun s => decide (s.videoId ≠ videoId))) vid ≤
      defaultCount st.subtitles vid := by
    intro vid
    unfold defaultCount
    rw [List.countP_filter]
    apply List.countP_mono_left
    intro x _ h
    rw [Bool.and_eq_true] at h
    exact h.1
  refine ⟨?_, ?_, ?_⟩
  · unfold emitSubtitles defaultCount
    dsimp only
    rw [List.countP_append]
    unfold defaultCount at hA0
    rw [hA0, emitted_countP, if_pos rfl, countP_eq_originalLang originalLang targetLangs hor]
  · unfold emitSubtitles
    dsimp only
    intro s hs hvid hdef
    rw [List.mem_append] at hs
    rcases hs with hs | hs
    · rw [List.mem_filter] at hs
      simp only [decide_eq_true_eq] at hs
      exact absurd hvid hs.2
    · rw [List.mem_map] at hs
      obtain ⟨lang, _, rfl⟩ := hs
      by_cases h : lang = originalLang
      · simpa [emittedSubtitle] using h
      · exact absurd hdef (by simp [emittedSubtitle, h])
  · intro vid
    unfold emitSubtitles defaultCount
    dsimp only
    rw [List.countP_append]
    by_cases hv : vid = videoId
    · subst hv
      unfold defaultCount at hA0
      rw [hA0, emitted_countP, if_pos rfl, countP_eq_originalLang originalLang targetLangs hor]
    · rw [emitted_countP, if_neg hv]
      have h1 := hAle vid
      have h2 := hinv vid
      unfold defaultCount at h1 h2
      omega

/-- Witness for C1: emission for a concrete video over `en` plus two
target languages. -/
theorem emitSubtitles_default_unique_witness :
    ("en" ∉ ["vi", "ja"]) ∧
    (∀ vid, defaultCount sampleDb.subtitles vid ≤ 1) ∧
    defaultCount (emitSubtitles sampleDb 1 "en" ["vi", "ja"]
      (fun lang => (lang, "https://cdn.example/" ++ lang ++ ".vtt", lang ++ ".vtt"))).subtitles 1 = 1 :=
  have hor : "en" ∉ ["vi", "ja"] := by decide
  have hinv : ∀ vid, defaultCount sampleDb.subtitles vid ≤ 1 := by
    intro vid
    simp [defaultCount, sampleDb]
  ⟨hor, hinv,
    (emitSubtitles_default_unique sampleDb 1 "en" ["vi", "ja"]
      (fun lang => (lang, "https://cdn.example/" ++ lang ++ ".vtt", lang ++ ".vtt"))
      hor hinv).1⟩

/-- C7: the mastery level of every UserVocabulary record stays inside
the bounded ordinal range 0-5 across record creation (which starts at
the schema default 0) and mastery updates (which validate the new
value and reject anything out of range). -/
theorem mastery_bounded_preserved (st : DbState)
    (hinv : masteryBounded st.userVocabulary)
    (userId : Nat) (word : String)
    (translation phonetic definition exampleSentence : Option String)
    (videoId timestamp : Option Nat) (context : Option String)
    (vocabId : Nat) (m : Int) :
    masteryBounded (saveVocabulary st userId word translation phonetic definition
      exampleSentence videoId timestamp context).userVocabulary ∧
    masteryBounded (updateVocabularyMastery st vocabId m).1.userVocabulary := by
  constructor
  · unfold saveVocabulary
    dsimp only
    intro r hr
    rw [List.mem_append] at hr
    rcases hr with hr | hr
    · exact hinv r hr
    · rw [List.mem_singleton] at hr
      subst hr
      exact ⟨le_refl 0, by norm_num⟩
  · unfold updateVocabularyMastery
    split
    · rename_i hm
      dsimp only
      intro r hr
      rw [List.mem_map] at hr
      obtain ⟨a, ha, rfl⟩ := hr
      by_cases hid : a.id = vocabId
      · rw [if_pos hid]
        exact hm
      · rw [if_neg hid]
        exact hinv a ha
    · exact hinv

/-- Witness for C7 at the sample state. -/
theorem mastery_bounded_preserved_witness :
    masteryBounded sampleDb.userVocabulary ∧
    masteryBounded (saveVocabulary sampleDb 1 "hello"
      none none none none none none none).userVocabulary ∧
    masteryBounded (updateVocabularyMastery sampleDb 1 3).1.userVocabulary :=
  have hinv : masteryBounded sampleDb.userVocabulary := by
    intro r hr
    simp [sampleDb] at hr
  have h := mastery_bounded_preserved sampleDb hinv 1 "hello"
    none none none none none none none 1 3
  ⟨hinv, h.1, h.2⟩

/-- C10: `Submit(videoID)` fails with `AlreadyProcessing` — creating
no job and changing no state — exactly when a job is already active
for that video; otherwise it appends exactly one job in `queued`.
Consequently the at-most-one-active-job-per-video invariant is
preserved, and of two submits for the same (initially idle) video the
first is accepted and the second rejected without a second job. -/
theorem submit_contract (st : JobStore) (videoId : Nat) :
    ((submit st videoId).2 = Except.error SubmitError.AlreadyProcessing ↔
      ∃ j ∈ st.jobs, j.videoId = videoId ∧ j.stage.isActive = true) ∧
    ((submit st videoId).2 = Except.error SubmitError.AlreadyProcessing →
      (submit st videoId).1 = st) ∧
    (∀ jid, (submit st videoId).2 = Except.ok jid →
      (submit st videoId).1.jobs =
        st.jobs ++ [{ id := jid, videoId := videoId, stage := JobStage.queued }]) ∧
    (∀ vid, activeJobCount st vid ≤ 1 → activeJobCount (submit st videoId).1 vid ≤ 1) ∧
    (activeJobCount st videoId = 0 →
      ∃ jid, (submit st videoId).2 = Except.ok jid ∧
        (submit (submit st videoId).1 videoId).2 =
          Except.error SubmitError.AlreadyProcessing ∧
        (submit (submit st videoId).1 videoId).1 = (submit st videoId).1) := by
  by_cases hany :
      st.jobs.any (fun j => decide (j.videoId = videoId) && j.stage.isActive) = true
  · have hsub : submit st videoId = (st, Except.error SubmitError.AlreadyProcessing) := by
      unfold submit
      rw [if_pos hany]
    rw [hsub]
    refine ⟨?_, fun _ => rfl, ?_, ?_, ?_⟩
    · constructor
      · intro _
        rw [List.any_eq_true] at hany
        obtain ⟨j, hj, hp⟩ := hany
        rw [Bool.and_eq_true, decide_eq_true_eq] at hp
        exact ⟨j, hj, hp.1, hp.2⟩
      · intro _
        rfl
    · intro jid h
      exact Except.noConfusion h
    · intro vid h
      exact h
    · intro h0
      exfalso
      rw [List.any_eq_true] at hany
      obtain ⟨j, hj, hp⟩ := hany
      unfold activeJobCount at h0
      rw [List.countP_eq_zero] at h0
      exact h0 j hj hp
  · have hall : ∀ j ∈ st.jobs,
        ¬(decide (j.videoId = videoId) && j.stage.isActive) = true := by
      intro j hj hp
      exact hany (List.any_eq_true.mpr ⟨j, hj, hp⟩)
    have hsub : submit st videoId =
        ({ jobs := st.jobs ++
            [{ id := nextJobId st, videoId := videoId, stage := JobStage.queued }] },
         Except.ok (nextJobId st)) := by
      unfold submit
      rw [if_neg hany]
    rw [hsub]
    have hany2 : (st.jobs ++
          [({ id := nextJobId st, videoId := videoId, stage := JobStage.queued } :
            ProcessingJob)]).any
        (fun j => decide (j.videoId = videoId) && j.stage.isActive) = true := by
      rw [List.any_eq_true]
      exact ⟨({ id := nextJobId st, videoId := videoId, stage := JobStage.queued } :
          ProcessingJob),
        List.mem_append_right _ (List.mem_singleton_self _),
        by simp [JobStage.isActive]⟩
    refine ⟨?_, ?_, ?_, ?_, ?_⟩
    · constructor
      · intro h
        exact Except.noConfusion h
      · intro hex
        obtain ⟨j, hj, h1, h2⟩ := hex
        exact absurd (show (decide (j.videoId = videoId) && j.stage.isActive) = true by
          simp [h1, h2]) (hall j hj)
    · intro h
      exact Except.noConfusion h
    · intro jid h
      rw [Except.ok.injEq] at h
      subst h
      rfl
    · intro vid hle
      unfold activeJobCount at hle ⊢
      dsimp only
      rw [List.countP_append]
      by_cases hv : vid = videoId
      · subst hv
        have h0 : st.jobs.countP
            (fun j => decide (j.videoId = vid) && j.stage.isActive) = 0 := by
          rw [List.countP_eq_zero]
          exact hall
        rw [h0]
        simp [List.countP_cons, JobStage.isActive]
      · have h1 : List.countP (fun j => decide (j.videoId = vid) && j.stage.isActive)
            [({ id := nextJobId st, videoId := videoId, stage := JobStage.queued } :
              ProcessingJob)] = 0 := by
          simp [Ne.symm hv]
        rw [h1]
        simpa using hle
    · intro _
      refine ⟨nextJobId st, rfl, ?_, ?_⟩
      · unfold submit
        rw [if_pos hany2]
      · unfold submit
        rw [if_pos hany2]

/-- Witness for C10: a fresh store, one video id. -/
theorem submit_contract_witness :
    activeJobCount { jobs := [] } 7 = 0 ∧
    (∃ jid, (submit { jobs := [] } 7).2 = Except.ok jid ∧
      (submit (submit { jobs := [] } 7).1 7).2 =
        Except.error SubmitError.AlreadyProcessing ∧
      (submit (submit { jobs := [] } 7).1 7).1 = (submit { jobs := [] } 7).1) :=
  have h0 : activeJobCount { jobs := [] } 7 = 0 := by
    simp [activeJobCount]
  ⟨h0, (submit_contract { jobs := [] } 7).2.2.2.2 h0⟩
